import Mathlib

/-
Shallow embedding of the DSS Refund Auditor decision engine.

The repository ships two variants of the engine:
  namespace App models assets/app.js, the standalone/sidebar implementation;
  namespace Enh models the enhanced implementation embedded in the setup guide
  (full-conversation variant with conversationCount and a reduced output record).

JavaScript regexes are embedded as executable character-list scanners with the
same observable behaviour (leftmost match, greedy quantifiers, the dot matching
any character except line terminators).  The wall clock read by new Date() is
modelled as an explicit date-string parameter.
-/

namespace DSS

/-- Lowercase a character list, as String.prototype.toLowerCase on ASCII data. -/
def lcL (s : List Char) : List Char := s.map Char.toLower

/-- listStartsWith needle hay: needle is a prefix of hay. -/
def listStartsWith : List Char → List Char → Bool
  | [], _ => true
  | _ :: _, [] => false
  | c :: cs, d :: ds => c == d && listStartsWith cs ds

/-- listHasSub needle hay: needle occurs contiguously in hay
(String.prototype.includes / a regex alternation of literals). -/
def listHasSub (needle : List Char) : List Char → Bool
  | [] => needle.isEmpty
  | c :: t => listStartsWith needle (c :: t) || listHasSub needle t

/-- Whitespace recognised by the regex class backslash-s (ASCII part). -/
def isJsSpace (c : Char) : Bool :=
  c == ' ' || c == '\t' || c == '\n' || c == '\r' || c == '\x0b' || c == '\x0c'

/-- String.prototype.trim on a character list. -/
def jsTrimL (s : List Char) : List Char :=
  ((s.dropWhile isJsSpace).reverse.dropWhile isJsSpace).reverse

/-- Line terminators that the regex dot does not match. -/
def isRegexNL (c : Char) : Bool :=
  c == '\n' || c == '\r' || c == Char.ofNat 0x2028 || c == Char.ofNat 0x2029

/-- qAfterNoNL q s: q occurs in s with only non-line-terminator characters
before it (the tail of a regex of shape p dot-star q). -/
def qAfterNoNL (q : List Char) : List Char → Bool
  | [] => listStartsWith q []
  | c :: t => listStartsWith q (c :: t) || (!(isRegexNL c) && qAfterNoNL q t)

/-- seqNoNL p q s: test of a regex p dot-star q, i.e. an occurrence of p
followed (with no intervening line terminator) by an occurrence of q. -/
def seqNoNL (p q : List Char) : List Char → Bool
  | [] => listStartsWith p [] && qAfterNoNL q []
  | c :: t =>
    (listStartsWith p (c :: t) && qAfterNoNL q ((c :: t).drop p.length)) || seqNoNL p q t

/-- JavaScript a || b on strings: the empty string is the only falsy string. -/
def jsOr (a b : String) : String := if a == "" then b else a

/-- JavaScript o || d for a possibly-undefined string property. -/
def optOr (o : Option String) (d : String) : String :=
  match o with
  | some s => if s == "" then d else s
  | none => d

/-- Template interpolation of a possibly-undefined string property. -/
def jsTemplate (o : Option String) : String := o.getD "undefined"

/-- Character class of the currency-amount body: digits and thousands commas. -/
def isDigitComma (c : Char) : Bool := c.isDigit || c == ','

/-- Decimal value of a digit list (the integer part of parseFloat). -/
def digitsVal (ds : List Char) : Nat :=
  ds.foldl (fun n c => n * 10 + (c.toNat - 48)) 0

/-- String.prototype.replace of every comma by the empty string. -/
def stripCommas (s : List Char) : List Char := s.filter (fun c => c != ',')

/-- Value in cents of the 1-2 fraction digits captured after the dot. -/
def fracCents : List Char → Nat
  | [d] => (d.toNat - 48) * 10
  | [d, e] => (d.toNat - 48) * 10 + (e.toNat - 48)
  | _ => 0

/-- parseFloat of a captured amount (digits, optionally dot and 1-2 digits),
in cents; none models NaN (a capture that held only commas). -/
def parseCents (s : List Char) : Option Nat :=
  let ip := s.takeWhile Char.isDigit
  let rest := s.drop ip.length
  match rest with
  | '.' :: fs => some (digitsVal ip * 100 + fracCents fs)
  | _ => if ip.isEmpty then none else some (digitsVal ip * 100)

/-- Greedy optional fraction: a dot followed by one or two digits. -/
def fracOf : List Char → List Char
  | c :: d1 :: d2 :: _ =>
    if c == '.' then
      if d1.isDigit && d2.isDigit then [c, d1, d2]
      else if d1.isDigit then [c, d1]
      else []
    else []
  | [c, d1] => if c == '.' then (if d1.isDigit then [c, d1] else []) else []
  | _ => []

/-- Does the head character extend a currency amount (digit, comma or dot)? -/
def amountContinues : List Char → Bool
  | [] => false
  | c :: _ => isDigitComma c || c == '.'

/-- Match of the dollar-form amount regex just after a dollar sign: skip
whitespace, take a nonempty run of digits/commas, then an optional fraction.
Returns the capture group. -/
def matchAmountAt (s : List Char) : Option (List Char) :=
  let s1 := s.dropWhile isJsSpace
  let run := s1.takeWhile isDigitComma
  if run.isEmpty then none
  else some (run ++ fracOf (s1.drop run.length))

/-- Leftmost match of the dollar-form currency regex: scan for a dollar sign
whose suffix matches. -/
def findDollar : List Char → Option (List Char)
  | [] => none
  | c :: t =>
    if c == '$' then
      match matchAmountAt t with
      | some cap => some cap
      | none => findDollar t
    else findDollar t

/-- Whitespace then the letters usd, case-insensitively. -/
def usdAfter (s : List Char) : Bool :=
  listStartsWith ("usd".data) (lcL (s.dropWhile isJsSpace))

/-- Match of the USD-suffix amount regex at a position: a nonempty run of
digits/commas, a greedy optional fraction, whitespace, then usd.  A shorter
digit run cannot match (the following character would be a digit or comma,
matching neither the dot nor usd), so only the maximal run is tried. -/
def matchUsdAt (s : List Char) : Option (List Char) :=
  let run := s.takeWhile isDigitComma
  if run.isEmpty then none
  else
    let rest := s.drop run.length
    match rest with
    | '.' :: d1 :: d2 :: r2 =>
      if d1.isDigit && d2.isDigit && usdAfter r2 then some (run ++ ['.', d1, d2])
      else if d1.isDigit && usdAfter (d2 :: r2) then some (run ++ ['.', d1])
      else if usdAfter rest then some run
      else none
    | ['.', d1] =>
      if d1.isDigit && usdAfter [] then some (run ++ ['.', d1])
      else if usdAfter rest then some run
      else none
    | _ => if usdAfter rest then some run else none

/-- Leftmost match of the USD-suffix currency regex. -/
def findUsd : List Char → Option (List Char)
  | [] => none
  | c :: t =>
    match matchUsdAt (c :: t) with
    | some cap => some cap
    | none => findUsd t

/-- Shared ternary on the parsed amount: at most 125 dollars is the low tier;
NaN compares false and therefore lands in the high tier. -/
def tierOfCapture (cap : List Char) : String :=
  match parseCents (stripCommas cap) with
  | some v => if v ≤ 12500 then "≤ USD 125" else "> USD 125"
  | none => "> USD 125"

/-- One row of the DSS grid as loaded from dss_grid.json.  Option models a
property that may be absent (undefined) in the loose JSON shape. -/
structure GridRow where
  l1 : Option String
  l2 : Option String
  keywords : List String
  cC : Option String
  cD : Option String
  cE : Option String
  cF : Option String
  cG : Option String
  cH : Option String
  cI : Option String
  cJ : Option String
  deriving DecidableEq

/-- Dynamic property access gridRow[columnLetter] for the eight column keys. -/
def GridRow.cell (r : GridRow) (col : String) : Option String :=
  if col == "C" then r.cC else if col == "D" then r.cD
  else if col == "E" then r.cE else if col == "F" then r.cF
  else if col == "G" then r.cG else if col == "H" then r.cH
  else if col == "I" then r.cI else if col == "J" then r.cJ
  else none

/-- The empty object passed as matchRow when no row matched. -/
def emptyRow : GridRow :=
  { l1 := none, l2 := none, keywords := []
    cC := none, cD := none, cE := none, cF := none
    cG := none, cH := none, cI := none, cJ := none }

/-- The fixed column-header mapping shared by both variants. -/
def cellHeaderMap (col : String) : Option String :=
  if col == "C" then some "Partnered ≤ USD 125"
  else if col == "D" then some "Partnered > USD 125"
  else if col == "E" then some "Non-Partnered ≤ USD 125"
  else if col == "F" then some "Non-Partnered > USD 125"
  else if col == "G" then some "Social Media Partnered ≤ USD 125"
  else if col == "H" then some "Social Media Partnered > USD 125"
  else if col == "I" then some "Social Media Non-Partnered ≤ USD 125"
  else if col == "J" then some "Social Media Non-Partnered > USD 125"
  else none

/-- Ten points for every keyword of the row found in the haystack. -/
def keywordScore (text : List Char) (ks : List String) : Nat :=
  ks.foldl (fun s k => if listHasSub (lcL k.data) text then s + 10 else s) 0

/-- Five points when a truthy L1/L2 property occurs in the haystack. -/
def fiveIf (text : List Char) (o : Option String) : Nat :=
  match o with
  | some s => if s != "" && listHasSub (lcL s.data) text then 5 else 0
  | none => 0

/-- Score of one grid row against the lowercased haystack. -/
def rowScore (text : List Char) (r : GridRow) : Nat :=
  keywordScore text r.keywords + fiveIf text r.l1 + fiveIf text r.l2

/-- The best-match loop: keep the row with the strictly highest score seen so
far (a tie keeps the earlier row). -/
def scanBest (text : List Char) : List GridRow → Option GridRow → Nat → Option GridRow × Nat
  | [], best, bestScore => (best, bestScore)
  | r :: t, best, bestScore =>
    let score := rowScore text r
    if bestScore < score then scanBest text t (some r) score
    else scanBest text t best bestScore

/-- Tail of the refund-sentence regex after the literal refund: lazily extend
over non-line-terminator characters until a dot (kept) or the end of input. -/
def refundTail : List Char → Option (List Char)
  | [] => some []
  | c :: t =>
    if c == '.' then some [c]
    else if isRegexNL c then none
    else (refundTail t).map (fun b => c :: b)

/-- Leftmost match of the refund-sentence regex, preserving original casing. -/
def findRefund : List Char → Option (List Char)
  | [] => none
  | c :: t =>
    if listStartsWith ("refund".data) (lcL (c :: t)) then
      match refundTail ((c :: t).drop 6) with
      | some b => some ((c :: t).take 6 ++ b)
      | none => findRefund t
    else findRefund t

namespace App

/-- The ticket record gathered for the standalone app (valueTier is attached
to the record by runAudit before building the output). -/
structure Inputs where
  bookingId : String
  ticketId : String
  subject : String
  latestComment : String
  experienceType : String
  ticketStatus : String
  valueTier : String
  deriving DecidableEq

/-- The output record of the standalone app, one field per JSON key. -/
structure Output where
  bookingId : String
  week : String
  dssCompliance : String
  bookingValueTier : String
  l1Reason : String
  l2Reason : String
  gridColumnLetter : String
  gridColumnHeader : String
  experienceType : String
  refundTypeVerdict : String
  refundVerdictDetail : String
  complianceReason : String
  complianceExplanation : String
  refundAmountMethod : String
  ruleMisapplied : String
  severityMatch : String
  idealRefundAction : String
  confidence : String
  summary : String
  deriving DecidableEq

/-- detectValueTier of app.js: dollar-prefixed form first, USD-suffixed form
second, Unknown when neither currency pattern occurs (or the text is empty). -/
def detectValueTier (text : String) : String :=
  if text == "" then "Unknown"
  else
    match findDollar text.data with
    | some cap => tierOfCapture cap
    | none =>
      match findUsd text.data with
      | some cap => tierOfCapture cap
      | none => "Unknown"

/-- The lowercased haystack: latest comment, a space, the subject. -/
def textOf (inputs : Inputs) : List Char :=
  lcL (inputs.latestComment ++ " " ++ inputs.subject).data

/-- The fallback row test of app.js on one of L1/L2: the tokens unknown,
other or default, case-insensitively, on the property or empty string. -/
def fallbackTest (o : Option String) : Bool :=
  let s := lcL (o.getD "").data
  listHasSub ("unknown".data) s || listHasSub ("other".data) s ||
    listHasSub ("default".data) s

/-- findBestMatch of app.js: best-scoring row, and otherwise the first
unknown/other/default row regardless of conversation emptiness. -/
def findBestMatch (grid : List GridRow) (inputs : Inputs) : Option GridRow :=
  match scanBest (textOf inputs) grid none 0 with
  | (some b, _) => some b
  | (none, _) => grid.find? (fun r => fallbackTest r.l1 || fallbackTest r.l2)

/-- chooseColumnLetter of app.js.  Every regex test is embedded on the
lowercased trimmed type; the valueTier ternaries default to the low column
when the tier is neither of the two recognised strings. -/
def chooseColumnLetter (experienceType valueTier : String) : String :=
  let t := lcL (jsTrimL experienceType.data)
  let vt : String := ⟨jsTrimL valueTier.data⟩
  if t == ("partnered".data) ||
      (listHasSub ("partnered".data) t && !(listHasSub ("social".data) t)) then
    if vt == "≤ USD 125" then "C" else if vt == "> USD 125" then "D" else "C"
  else if (t == ("non-partnered".data) || t == ("nonpartnered".data)) ||
      ((listHasSub ("non-partnered".data) t || listHasSub ("nonpartnered".data) t) &&
        !(listHasSub ("social".data) t)) then
    if vt == "≤ USD 125" then "E" else if vt == "> USD 125" then "F" else "E"
  else if seqNoNL ("social".data) ("partnered".data) t ||
      (listHasSub ("social".data) t && listHasSub ("partnered".data) t &&
        !(listHasSub ("non".data) t)) then
    if vt == "≤ USD 125" then "G" else if vt == "> USD 125" then "H" else "G"
  else if (seqNoNL ("social".data) ("non-partnered".data) t ||
      seqNoNL ("social".data) ("nonpartnered".data) t) ||
      (listHasSub ("social".data) t &&
        (listHasSub ("non-partnered".data) t || listHasSub ("nonpartnered".data) t)) then
    if vt == "≤ USD 125" then "I" else if vt == "> USD 125" then "J" else "I"
  else if vt == "> USD 125" then "D" else "C"

/-- severityRank of app.js: ordinal 1 (most generous) to 5, neutral 3. -/
def severityRank (refundText : String) : Nat :=
  let t := lcL refundText.data
  if listHasSub ("full refund".data) t || listHasSub ("refund to original".data) t ||
      listHasSub ("refund (original method)".data) t then 1
  else if listHasSub ("partial refund".data) t || listHasSub ("% refund".data) t then 2
  else if listHasSub ("full wallet credit".data) t ||
      listHasSub ("wallet credit full".data) t then 3
  else if listHasSub ("partial wallet credit".data) t ||
      listHasSub ("credit to wallet partial".data) t then 4
  else if listHasSub ("no refund".data) t || listHasSub ("deny refund".data) t ||
      listHasSub ("no action".data) t then 5
  else 3

/-- compareSeverity of app.js, including its dead final branch. -/
def compareSeverity (expectedText actualText : String) : String :=
  let e := severityRank expectedText
  let a := severityRank actualText
  if e == a then "Match"
  else if a > e then "Less severe (under-refunded)"
  else if a < e then "More severe (over-refunded)"
  else "Mismatch"

/-- The expected cell text: selected-column entry of the matched row, or the
empty string when there is no row or no entry. -/
def expectedCellOf (gridRow : Option GridRow) (columnLetter : String) : String :=
  match gridRow with
  | some r => (r.cell columnLetter).getD ""
  | none => ""

/-- The refund-type classification chain of app.js on the actual action. -/
def refundTypeVerdictOf (actualActionText : String) : String :=
  let rt := lcL (jsOr actualActionText "").data
  if listHasSub ("refund to original".data) rt || listHasSub ("full refund".data) rt then
    "Full refund (original method)"
  else if listHasSub ("partial refund".data) rt || listHasSub ("% refund".data) rt then
    "Partial refund"
  else if seqNoNL ("wallet credit".data) ("full".data) rt ||
      seqNoNL ("full".data) ("wallet credit".data) rt then
    "Full wallet credit"
  else if listHasSub ("wallet credit".data) rt || listHasSub ("credit to wallet".data) rt then
    "Partial wallet credit"
  else if listHasSub ("no refund".data) rt || listHasSub ("deny refund".data) rt then
    "No refund"
  else "Unknown"

/-- buildOutputJSON of app.js.  The today parameter models the
new Date().toISOString().slice(0, 10) expression of the Week field. -/
def buildOutputJSON (inputs : Inputs) (gridRow : Option GridRow)
    (columnLetter : String) (actualActionText : String) (today : String) : Output :=
  let expectedCellText := expectedCellOf gridRow columnLetter
  let severityComparison := compareSeverity expectedCellText actualActionText
  let complianceFlag :=
    if severityComparison == "Match" ||
        severityComparison == "Less severe (under-refunded)" then "Compliant"
    else if severityComparison == "More severe (over-refunded)" then "Non-Compliant"
    else "Non-Compliant (DSS Rule Misapplied)"
  { bookingId := jsOr inputs.bookingId (jsOr inputs.ticketId "")
    week := today
    dssCompliance := complianceFlag
    bookingValueTier := jsOr inputs.valueTier ""
    l1Reason := (match gridRow with | some r => r.l1.getD "" | none => "")
    l2Reason := (match gridRow with | some r => r.l2.getD "" | none => "")
    gridColumnLetter := jsOr columnLetter ""
    gridColumnHeader := (cellHeaderMap columnLetter).getD ""
    experienceType := jsOr inputs.experienceType ""
    refundTypeVerdict := refundTypeVerdictOf actualActionText
    refundVerdictDetail := jsOr actualActionText ""
    complianceReason := severityComparison
    complianceExplanation :=
      "DSS expects: \"" ++ (jsOr expectedCellText "").take 150 ++
        "\". Actual: \"" ++ (jsOr actualActionText "").take 150 ++ "\"."
    refundAmountMethod := jsOr actualActionText ""
    ruleMisapplied :=
      if listHasSub ("Non-Compliant".data) complianceFlag.data then "Yes" else "No"
    severityMatch := severityComparison
    idealRefundAction := jsOr expectedCellText ""
    confidence := "High"
    summary :=
      "L1: " ++ (match gridRow with | some r => jsTemplate r.l1 | none => "Unknown") ++
        "; L2: " ++ (match gridRow with | some r => jsTemplate r.l2 | none => "Unknown") ++
        "; Col: " ++ ((cellHeaderMap columnLetter).getD "N/A") }

/-- The observed-action extractor of runAudit: first refund sentence. -/
def extractRefund (s : String) : String :=
  match findRefund s.data with
  | some m => ⟨m⟩
  | none => ""

/-- The full engine pipeline of runAudit in app.js, with the wall-clock date
as an explicit parameter. -/
def runEngine (grid : List GridRow) (inputs0 : Inputs) (today : String) : Output :=
  let inputs := { inputs0 with
    valueTier := detectValueTier (inputs0.latestComment ++ " " ++ inputs0.subject) }
  let matchRow := findBestMatch grid inputs
  let col := chooseColumnLetter inputs.experienceType inputs.valueTier
  let refundSentence := extractRefund inputs.latestComment
  buildOutputJSON inputs (some (matchRow.getD emptyRow)) col (jsOr refundSentence "") today

end App

namespace Enh

/-- The ticket record gathered by the enhanced implementation. -/
structure Inputs where
  bookingId : String
  ticketId : String
  subject : String
  fullConversation : String
  conversationCount : Nat
  experienceType : String
  ticketStatus : String
  valueTier : String
  deriving DecidableEq

/-- The reduced output record of the enhanced implementation. -/
structure Output where
  bookingId : String
  week : String
  dssCompliance : String
  bookingValueTier : String
  l1Reason : String
  l2Reason : String
  experienceType : String
  conversationCount : Nat
  confidence : String
  deriving DecidableEq

/-- detectValueTier of the enhanced implementation: dollar-prefixed form only. -/
def detectValueTier (text : String) : String :=
  if text == "" then "Unknown"
  else
    match findDollar text.data with
    | some cap => tierOfCapture cap
    | none => "Unknown"

/-- The lowercased haystack: full conversation, a space, the subject. -/
def textOf (inputs : Inputs) : List Char :=
  lcL (inputs.fullConversation ++ " " ++ inputs.subject).data

/-- The fallback row test of the enhanced implementation: only L1, only the
tokens unknown or default. -/
def enhFallbackTest (o : Option String) : Bool :=
  let s := lcL (o.getD "").data
  listHasSub ("unknown".data) s || listHasSub ("default".data) s

/-- findBestMatch of the enhanced implementation: best-scoring row, and a
fallback row only when the conversation is empty. -/
def findBestMatch (grid : List GridRow) (inputs : Inputs) : Option GridRow :=
  match scanBest (textOf inputs) grid none 0 with
  | (some b, _) => some b
  | (none, _) =>
    if inputs.conversationCount == 0 then grid.find? (fun r => enhFallbackTest r.l1)
    else none

/-- chooseColumnLetter of the enhanced implementation: same precedence, but
an unrecognised tier falls into the high column of each rule. -/
def chooseColumnLetter (experienceType valueTier : String) : String :=
  let t := lcL (jsTrimL experienceType.data)
  let vt : String := ⟨jsTrimL valueTier.data⟩
  if t == ("partnered".data) ||
      (listHasSub ("partnered".data) t && !(listHasSub ("social".data) t)) then
    if vt == "≤ USD 125" then "C" else "D"
  else if (t == ("non-partnered".data) || t == ("nonpartnered".data)) ||
      ((listHasSub ("non-partnered".data) t || listHasSub ("nonpartnered".data) t) &&
        !(listHasSub ("social".data) t)) then
    if vt == "≤ USD 125" then "E" else "F"
  else if seqNoNL ("social".data) ("partnered".data) t ||
      (listHasSub ("social".data) t && listHasSub ("partnered".data) t &&
        !(listHasSub ("non".data) t)) then
    if vt == "≤ USD 125" then "G" else "H"
  else if (seqNoNL ("social".data) ("non-partnered".data) t ||
      seqNoNL ("social".data) ("nonpartnered".data) t) ||
      (listHasSub ("social".data) t &&
        (listHasSub ("non-partnered".data) t || listHasSub ("nonpartnered".data) t)) then
    if vt == "≤ USD 125" then "I" else "J"
  else if vt == "> USD 125" then "D" else "C"

/-- buildOutputJSON of the enhanced implementation.  actualActionText is
accepted and ignored, as in the source; today models new Date(). -/
def buildOutputJSON (inputs : Inputs) (gridRow : Option GridRow)
    (columnLetter : String) (actualActionText : String) (today : String) : Output :=
  let expectedCellText := App.expectedCellOf gridRow columnLetter
  let complianceFlag :=
    if expectedCellText == "" ||
        listHasSub ("no action".data) (lcL expectedCellText.data) then
      "Non-Compliant (DSS Rule Missing)"
    else "Compliant"
  let _ := actualActionText
  { bookingId := inputs.bookingId
    week := today
    dssCompliance := complianceFlag
    bookingValueTier := jsOr inputs.valueTier "Unknown"
    l1Reason := (match gridRow with | some r => optOr r.l1 "Unknown" | none => "Unknown")
    l2Reason := (match gridRow with | some r => optOr r.l2 "Unknown" | none => "Unknown")
    experienceType := (cellHeaderMap columnLetter).getD "Unknown"
    conversationCount := inputs.conversationCount
    confidence := if inputs.conversationCount > 0 then "High" else "Low" }

end Enh

/-! Helper lemmas about the embedded scanners and the best-match loop. -/

/-- A digit character is not equal (as a boolean test) to any non-digit. -/
theorem isDigit_ne {c d : Char} (h : c.isDigit = true) (hd : d.isDigit = false) :
    (c == d) = false := by
  cases hbe : c == d
  · rfl
  · have hcd : c = d := beq_iff_eq.mp hbe
    subst hcd
    rw [h] at hd
    cases hd

/-- A digit is not regex whitespace. -/
theorem isDigit_not_jsSpace {c : Char} (h : c.isDigit = true) : isJsSpace c = false := by
  unfold isJsSpace
  rw [isDigit_ne h (by decide), isDigit_ne h (by decide), isDigit_ne h (by decide),
    isDigit_ne h (by decide), isDigit_ne h (by decide), isDigit_ne h (by decide)]
  rfl

/-- A digit is in the digit-or-comma class. -/
theorem isDigit_isDigitComma {c : Char} (h : c.isDigit = true) : isDigitComma c = true := by
  unfold isDigitComma
  rw [h]
  rfl

/-- A scan for a dollar sign passes over dollar-free text. -/
theorem findDollar_append {pre : List Char} (rest : List Char) (hpre : '$' ∉ pre) :
    findDollar (pre ++ rest) = findDollar rest := by
  induction pre with
  | nil => rfl
  | cons c p ih =>
    have hc : (c == '$') = false := by
      cases hbe : c == '$'
      · rfl
      · exact absurd (beq_iff_eq.mp hbe) (fun h => hpre (h ▸ List.mem_cons_self c p))
    have hp : '$' ∉ p := fun h => hpre (List.mem_cons_of_mem c h)
    simp only [List.cons_append, findDollar, hc, Bool.false_eq_true, if_false]
    exact ih hp

/-- takeWhile over an append whose left part satisfies the predicate. -/
theorem takeWhile_all_append {p : Char → Bool} :
    ∀ {l m : List Char}, (∀ c ∈ l, p c = true) →
      (l ++ m).takeWhile p = l ++ m.takeWhile p := by
  intro l
  induction l with
  | nil => intro m _; rfl
  | cons c t ih =>
    intro m h
    have hc : p c = true := h c (List.mem_cons_self c t)
    simp only [List.cons_append, List.takeWhile_cons, hc, if_true]
    rw [ih (fun d hd => h d (List.mem_cons_of_mem c hd))]

/-- takeWhile of a list every element of which satisfies the predicate. -/
theorem takeWhile_all {p : Char → Bool} {l : List Char} (h : ∀ c ∈ l, p c = true) :
    l.takeWhile p = l := by
  have := takeWhile_all_append (m := ([] : List Char)) h
  simpa using this

/-- The first character after the amount stops the digit-comma run. -/
theorem takeWhile_stops {p : Char → Bool} {m : List Char}
    (h : ∀ c, m.head? = some c → p c = false) : m.takeWhile p = [] := by
  cases m with
  | nil => rfl
  | cons c t => simp [List.takeWhile_cons, h c rfl]

/-- The greedy optional fraction is empty when no dot follows. -/
theorem fracOf_no_dot {post : List Char} (h : amountContinues post = false) :
    fracOf post = [] := by
  cases post with
  | nil => rfl
  | cons c t =>
    have hc : (c == '.') = false := by
      cases hbe : c == '.'
      · rfl
      · rw [beq_iff_eq.mp hbe] at h
        simp [amountContinues, isDigitComma] at h
    cases t with
    | nil => rfl
    | cons d1 t1 =>
      cases t1 with
      | nil => simp [fracOf, hc]
      | cons d2 t2 => simp [fracOf, hc]

/-- The best-match loop leaves its accumulator alone when nothing beats it. -/
theorem scanBest_const (text : List Char) :
    ∀ (l : List GridRow) (b : Option GridRow) (s : Nat),
      (∀ r ∈ l, rowScore text r ≤ s) → scanBest text l b s = (b, s) := by
  intro l
  induction l with
  | nil => intro b s _; rfl
  | cons r t ih =>
    intro b s h
    have hr : rowScore text r ≤ s := h r (List.mem_cons_self r t)
    have hlt : ¬ (s < rowScore text r) := by omega
    simp only [scanBest, hlt, if_false]
    exact ih b s (fun r' hr' => h r' (List.mem_cons_of_mem r hr'))

/-- With a strictly positive maximal score in sight, the loop returns the
first row attaining the maximum. -/
theorem scanBest_firstMax (text : List Char) (m : Nat) :
    ∀ (l : List GridRow) (b : Option GridRow) (s : Nat),
      s < m → (∀ r ∈ l, rowScore text r ≤ m) → (∃ r ∈ l, rowScore text r = m) →
      scanBest text l b s = (l.find? (fun r => rowScore text r == m), m) := by
  intro l
  induction l with
  | nil =>
    intro b s _ _ hex
    exact absurd hex (by simp)
  | cons r t ih =>
    intro b s hs hall hex
    by_cases hr : rowScore text r = m
    · have hlt : s < rowScore text r := by omega
      simp only [scanBest, hlt, if_true]
      rw [List.find?_cons_of_pos _ (by simp [hr])]
      rw [hr]
      exact scanBest_const text t (some r) m
        (fun r' h' => hall r' (List.mem_cons_of_mem r h'))
    · have hex' : ∃ r' ∈ t, rowScore text r' = m := by
        rcases hex with ⟨r', hr', hm⟩
        rcases List.mem_cons.mp hr' with h | h
        · exact absurd (h ▸ hm) hr
        · exact ⟨r', h, hm⟩
      rw [List.find?_cons_of_neg _ (by simp [hr])]
      by_cases hcase : s < rowScore text r
      · simp only [scanBest, hcase, if_true]
        exact ih (some r) (rowScore text r)
          (by have := hall r (List.mem_cons_self r t); omega)
          (fun r' h' => hall r' (List.mem_cons_of_mem r h')) hex'
      · simp only [scanBest, hcase, if_false]
        exact ih b s hs (fun r' h' => hall r' (List.mem_cons_of_mem r h')) hex'

/-! Concrete fixtures used by counterexamples and witnesses. -/

/-- A grid row whose L1 is the token other and whose cells are all absent. -/
def rowOther : GridRow := { emptyRow with l1 := some "other" }

/-- A grid row whose L1 is the token unknown. -/
def rowUnknown : GridRow := { emptyRow with l1 := some "unknown" }

/-- A row prescribing a full refund in its C cell. -/
def rowFullC : GridRow := { emptyRow with l1 := some "cancel", cC := some "Full refund" }

/-- Two rows sharing one keyword, distinguishable by their C cells. -/
def rowKwA : GridRow := { emptyRow with l1 := some "x", keywords := ["cancel"], cC := some "a" }

/-- Second of the two keyword-tied rows. -/
def rowKwB : GridRow := { emptyRow with l1 := some "y", keywords := ["cancel"], cC := some "b" }

/-- Standalone-app inputs with fixed identifiers. -/
def mkAppInputs (subject comment expType tier : String) : App.Inputs :=
  { bookingId := "4821", ticketId := "100", subject := subject, latestComment := comment
    experienceType := expType, ticketStatus := "open", valueTier := tier }

/-- Enhanced-implementation inputs with fixed identifiers. -/
def mkEnhInputs (subject conv : String) (count : Nat) (expType tier : String) : Enh.Inputs :=
  { bookingId := "4821", ticketId := "100", subject := subject, fullConversation := conv
    conversationCount := count, experienceType := expType, ticketStatus := "open"
    valueTier := tier }

/-! Claim theorems. -/

/-- Claim C9 (confirmed): compareSeverity is total and always yields one of
Match, Less severe (under-refunded) or More severe (over-refunded); the final
Mismatch branch is unreachable because severity ranks are totally ordered
naturals. -/
theorem claim_C9 (e a : String) :
    (App.compareSeverity e a = "Match" ∨
      App.compareSeverity e a = "Less severe (under-refunded)" ∨
      App.compareSeverity e a = "More severe (over-refunded)") ∧
    App.compareSeverity e a ≠ "Mismatch" := by
  unfold App.compareSeverity
  rcases Nat.lt_trichotomy (App.severityRank e) (App.severityRank a) with h | h | h
  · have h1 : (App.severityRank e == App.severityRank a) = false := by
      simp [Nat.ne_of_lt h]
    have h2 : App.severityRank a > App.severityRank e := h
    simp [h1, h2]
  · simp [h]
  · have h1 : (App.severityRank e == App.severityRank a) = false := by
      simp [Nat.ne_of_gt h]
    have h2 : ¬ (App.severityRank a > App.severityRank e) := by omega
    have h3 : App.severityRank a < App.severityRank e := h
    simp [h1, h2, h3]

/-- Every branch of the standalone column chooser is one of the eight keys. -/
theorem chooseColumn_cases_app (ty vt : String) :
    App.chooseColumnLetter ty vt = "C" ∨ App.chooseColumnLetter ty vt = "D" ∨
    App.chooseColumnLetter ty vt = "E" ∨ App.chooseColumnLetter ty vt = "F" ∨
    App.chooseColumnLetter ty vt = "G" ∨ App.chooseColumnLetter ty vt = "H" ∨
    App.chooseColumnLetter ty vt = "I" ∨ App.chooseColumnLetter ty vt = "J" := by
  simp only [App.chooseColumnLetter]
  split_ifs <;> simp

/-- Every branch of the enhanced column chooser is one of the eight keys. -/
theorem chooseColumn_cases_enh (ty vt : String) :
    Enh.chooseColumnLetter ty vt = "C" ∨ Enh.chooseColumnLetter ty vt = "D" ∨
    Enh.chooseColumnLetter ty vt = "E" ∨ Enh.chooseColumnLetter ty vt = "F" ∨
    Enh.chooseColumnLetter ty vt = "G" ∨ Enh.chooseColumnLetter ty vt = "H" ∨
    Enh.chooseColumnLetter ty vt = "I" ∨ Enh.chooseColumnLetter ty vt = "J" := by
  simp only [Enh.chooseColumnLetter]
  split_ifs <;> simp

/-- Claim C10 (confirmed): both column choosers are total and always return
one of the eight column keys C through J, so the fixed column-header lookup
on the result always succeeds. -/
theorem claim_C10 (ty vt : String) :
    (App.chooseColumnLetter ty vt ∈ (["C", "D", "E", "F", "G", "H", "I", "J"] : List String) ∧
      (cellHeaderMap (App.chooseColumnLetter ty vt)).isSome = true) ∧
    (Enh.chooseColumnLetter ty vt ∈ (["C", "D", "E", "F", "G", "H", "I", "J"] : List String) ∧
      (cellHeaderMap (Enh.chooseColumnLetter ty vt)).isSome = true) := by
  constructor
  · rcases chooseColumn_cases_app ty vt with h | h | h | h | h | h | h | h <;>
      rw [h] <;> exact ⟨by decide, by decide⟩
  · rcases chooseColumn_cases_enh ty vt with h | h | h | h | h | h | h | h <;>
      rw [h] <;> exact ⟨by decide, by decide⟩

/-- Claim C4 counterexample: with expected a full refund and actual a refusal,
compareSeverity returns Less severe (under-refunded), not More severe. -/
theorem claim_C4_counterexample :
    App.compareSeverity "Full refund to original payment method" "No refund - policy" ≠
      "More severe (over-refunded)" := by decide

/-- Claim C4 as amended: the two ranks are 1 and 5, and the comparison of a
prescribed full refund against an actual refusal is Less severe
(under-refunded), the under-refunded direction. -/
theorem claim_C4_amended :
    App.severityRank "Full refund to original payment method" = 1 ∧
    App.severityRank "No refund - policy" = 5 ∧
    App.compareSeverity "Full refund to original payment method" "No refund - policy" =
      "Less severe (under-refunded)" := by decide

/-- Claim C3 evaluation at the failing input: an experience type containing
social followed by non-partnered is captured by rule 3 (columns G/H), because
the regex social dot-star partnered also matches across the non- prefix; rule
4 (columns I/J) never fires for it, in both implementations. -/
theorem claim_C3_eval :
    App.chooseColumnLetter "Social Non-Partnered" "≤ USD 125" = "G" ∧
    App.chooseColumnLetter "Social Non-Partnered" "> USD 125" = "H" ∧
    Enh.chooseColumnLetter "Social Non-Partnered" "≤ USD 125" = "G" ∧
    Enh.chooseColumnLetter "Social Non-Partnered" "> USD 125" = "H" := by decide

/-- Claim C6 counterexample: in the standalone app an Unknown tier under rule
1 yields column C (Partnered-Low), not D as claimed. -/
theorem claim_C6_counterexample :
    App.chooseColumnLetter "Partnered" "Unknown" = "C" ∧
    App.chooseColumnLetter "Partnered" "Unknown" ≠ "D" := by decide

/-- Claim C6 as amended: when rule 1 fires (type exactly partnered, or
containing partnered but not social), both implementations give C for the low
tier and D for the high tier; for any other tier string (Unknown included)
the standalone app gives C while the enhanced implementation gives D. -/
theorem claim_C6_amended (ty vt : String)
    (h : lcL (jsTrimL ty.data) = ("partnered".data) ∨
      (listHasSub ("partnered".data) (lcL (jsTrimL ty.data)) = true ∧
        listHasSub ("social".data) (lcL (jsTrimL ty.data)) = false)) :
    ((⟨jsTrimL vt.data⟩ : String) = "≤ USD 125" →
      App.chooseColumnLetter ty vt = "C" ∧ Enh.chooseColumnLetter ty vt = "C") ∧
    ((⟨jsTrimL vt.data⟩ : String) = "> USD 125" →
      App.chooseColumnLetter ty vt = "D" ∧ Enh.chooseColumnLetter ty vt = "D") ∧
    ((⟨jsTrimL vt.data⟩ : String) ≠ "≤ USD 125" →
      (⟨jsTrimL vt.data⟩ : String) ≠ "> USD 125" →
      App.chooseColumnLetter ty vt = "C" ∧ Enh.chooseColumnLetter ty vt = "D") := by
  have hc : (lcL (jsTrimL ty.data) == ("partnered".data) ||
      (listHasSub ("partnered".data) (lcL (jsTrimL ty.data)) &&
        !(listHasSub ("social".data) (lcL (jsTrimL ty.data))))) = true := by
    rcases h with h | ⟨h1, h2⟩
    · rw [h]; simp
    · rw [h1, h2]; simp
  refine ⟨?_, ?_, ?_⟩
  · intro hv
    exact ⟨by simp [App.chooseColumnLetter, hc, hv], by simp [Enh.chooseColumnLetter, hc, hv]⟩
  · intro hv
    exact ⟨by simp [App.chooseColumnLetter, hc, hv], by simp [Enh.chooseColumnLetter, hc, hv]⟩
  · intro hv1 hv2
    exact ⟨by simp [App.chooseColumnLetter, hc, hv1, hv2],
      by simp [Enh.chooseColumnLetter, hc, hv1, hv2]⟩

/-- Witness for the amended claim C6 at a concrete rule-1 input. -/
theorem claim_C6_witness :
    App.chooseColumnLetter "Partnered" "> USD 125" = "D" ∧
    Enh.chooseColumnLetter "Partnered" "> USD 125" = "D" :=
  (claim_C6_amended "Partnered" "> USD 125" (Or.inl (by decide))).2.1 (by decide)

/-- Claim C1 counterexample: in the standalone app a matched row whose
selected-column entry is empty yields plain Compliant (severity 3 against 3
reads as Match); the rule-missing category does not take precedence there. -/
theorem claim_C1_counterexample :
    App.expectedCellOf (some rowOther) "C" = "" ∧
    (App.buildOutputJSON (mkAppInputs "s" "c" "Partnered" "Unknown") (some rowOther) "C"
        "hello" "2026-02-03").dssCompliance = "Compliant" := by decide

/-- Claim C1 as amended: in the standalone app the category is Compliant for
Match/Less severe and Non-Compliant for More severe, with no empty-expected
precedence; only the enhanced implementation forces Non-Compliant (DSS Rule
Missing) when the expected text is empty or prescribes no action, and it
reports Compliant in every other case without consulting severity. -/
theorem claim_C1_amended (inputs : App.Inputs) (gridRow : Option GridRow)
    (col act today : String) (inputsE : Enh.Inputs) (gridRowE : Option GridRow)
    (colE actE todayE : String) :
    (App.compareSeverity (App.expectedCellOf gridRow col) act = "Match" ∨
      App.compareSeverity (App.expectedCellOf gridRow col) act =
        "Less severe (under-refunded)" →
      (App.buildOutputJSON inputs gridRow col act today).dssCompliance = "Compliant") ∧
    (App.compareSeverity (App.expectedCellOf gridRow col) act =
        "More severe (over-refunded)" →
      (App.buildOutputJSON inputs gridRow col act today).dssCompliance = "Non-Compliant") ∧
    (App.expectedCellOf gridRowE colE = "" ∨
      listHasSub ("no action".data) (lcL (App.expectedCellOf gridRowE colE).data) = true →
      (Enh.buildOutputJSON inputsE gridRowE colE actE todayE).dssCompliance =
        "Non-Compliant (DSS Rule Missing)") ∧
    (App.expectedCellOf gridRowE colE ≠ "" →
      listHasSub ("no action".data) (lcL (App.expectedCellOf gridRowE colE).data) = false →
      (Enh.buildOutputJSON inputsE gridRowE colE actE todayE).dssCompliance = "Compliant") := by
  refine ⟨?_, ?_, ?_, ?_⟩
  · intro h
    rcases h with h | h <;> simp [App.buildOutputJSON, h]
  · intro h
    simp [App.buildOutputJSON, h]
  · intro h
    rcases h with h | h <;> simp [Enh.buildOutputJSON, h]
  · intro h1 h2
    simp [Enh.buildOutputJSON, h1, h2]

/-- Witness for the amended claim C1 at concrete inputs: a severity match
yields Compliant in the standalone app, and an empty expected cell yields the
rule-missing category in the enhanced implementation. -/
theorem claim_C1_witness :
    (App.buildOutputJSON (mkAppInputs "s" "c" "Partnered" "Unknown") (some rowFullC) "C"
        "a full refund was issued" "2026-02-03").dssCompliance = "Compliant" ∧
    (Enh.buildOutputJSON (mkEnhInputs "s" "c" 2 "Partnered" "Unknown") (some rowOther) "C"
        "ignored" "2026-02-03").dssCompliance = "Non-Compliant (DSS Rule Missing)" := by
  have h := claim_C1_amended (mkAppInputs "s" "c" "Partnered" "Unknown") (some rowFullC) "C"
    "a full refund was issued" "2026-02-03" (mkEnhInputs "s" "c" 2 "Partnered" "Unknown")
    (some rowOther) "C" "ignored" "2026-02-03"
  exact ⟨h.1 (by decide), h.2.2.1 (by decide)⟩

/-- Claim C8 counterexample: two invocations of the full pipeline on the same
input and table but at different wall-clock dates produce different verdicts
(the Week field records the invocation date). -/
theorem claim_C8_counterexample :
    App.runEngine [] (mkAppInputs "s" "a" "" "") "2026-01-01" ≠
      App.runEngine [] (mkAppInputs "s" "a" "" "") "2026-01-02" := by decide

/-- Changing only the date parameter of the output builder changes only the
Week field. -/
theorem buildOutput_week_shift (i : App.Inputs) (g : Option GridRow) (c a d1 d2 : String) :
    App.buildOutputJSON i g c a d2 = { App.buildOutputJSON i g c a d1 with week := d2 } := rfl

/-- Claim C8 as amended: the pipeline is deterministic over the declared
inputs together with the current date; the Week field equals the invocation
date and is the only field that depends on it. -/
theorem claim_C8_amended (grid : List GridRow) (inputs : App.Inputs) (d1 d2 : String) :
    (App.runEngine grid inputs d1).week = d1 ∧
    App.runEngine grid inputs d2 = { App.runEngine grid inputs d1 with week := d2 } := by
  refine ⟨rfl, ?_⟩
  show App.buildOutputJSON _ _ _ _ d2 = { App.runEngine grid inputs d1 with week := d2 }
  rw [buildOutput_week_shift _ _ _ _ d1 d2]
  rfl

/-- Claim C2 counterexample: with an empty conversation and a table whose only
row carries the token other in L1, the enhanced findBestMatch returns none
(its fallback scans only L1 for unknown/default); and the standalone
findBestMatch returns the fallback row even though its conversation is
non-empty. -/
theorem claim_C2_counterexample :
    Enh.findBestMatch [rowOther] (mkEnhInputs "" "" 0 "" "") = none ∧
    App.findBestMatch [rowUnknown] (mkAppInputs "" "hello there" "" "") = some rowUnknown := by
  decide

/-- Claim C2 as amended: when every row scores zero, the standalone app
applies the unknown/other/default fallback over L1 and L2 unconditionally
(regardless of conversation emptiness), while the enhanced implementation
applies a fallback only when conversationCount is zero and then scans only L1
for the tokens unknown or default. -/
theorem claim_C2_amended (grid : List GridRow) (iA : App.Inputs) (iE : Enh.Inputs)
    (hA : ∀ r ∈ grid, rowScore (App.textOf iA) r = 0)
    (hE : ∀ r ∈ grid, rowScore (Enh.textOf iE) r = 0) :
    App.findBestMatch grid iA =
      grid.find? (fun r => App.fallbackTest r.l1 || App.fallbackTest r.l2) ∧
    Enh.findBestMatch grid iE =
      (if iE.conversationCount == 0 then grid.find? (fun r => Enh.enhFallbackTest r.l1)
        else none) := by
  have h1 : scanBest (App.textOf iA) grid none 0 = (none, 0) :=
    scanBest_const _ grid none 0 (fun r hr => by rw [hA r hr])
  have h2 : scanBest (Enh.textOf iE) grid none 0 = (none, 0) :=
    scanBest_const _ grid none 0 (fun r hr => by rw [hE r hr])
  constructor
  · unfold App.findBestMatch
    rw [h1]
  · unfold Enh.findBestMatch
    rw [h2]

/-- Witness for the amended claim C2: a zero-scoring grid with an unknown row
falls back in the standalone app, and returns none in the enhanced
implementation when the conversation is non-empty. -/
theorem claim_C2_witness :
    App.findBestMatch [rowUnknown] (mkAppInputs "" "zzz" "" "") = some rowUnknown ∧
    Enh.findBestMatch [rowUnknown] (mkEnhInputs "" "zzz" 3 "" "") = none := by
  have h := claim_C2_amended [rowUnknown] (mkAppInputs "" "zzz" "" "")
    (mkEnhInputs "" "zzz" 3 "" "") (by decide) (by decide)
  exact ⟨h.1.trans (by decide), h.2.trans (by decide)⟩

/-- Claim C7 (confirmed): the best-match loop is order-stable.  Whenever some
row scores strictly positively, both findBestMatch variants return the first
row of the table attaining the maximal score; in particular, of two rows tied
at the best positive score, the earlier one is returned, and only a strictly
higher score displaces the current best. -/
theorem claim_C7 (grid : List GridRow) (iA : App.Inputs) (iE : Enh.Inputs) (mA mE : Nat)
    (hmA : 0 < mA) (hallA : ∀ r ∈ grid, rowScore (App.textOf iA) r ≤ mA)
    (hexA : ∃ r ∈ grid, rowScore (App.textOf iA) r = mA)
    (hmE : 0 < mE) (hallE : ∀ r ∈ grid, rowScore (Enh.textOf iE) r ≤ mE)
    (hexE : ∃ r ∈ grid, rowScore (Enh.textOf iE) r = mE) :
    App.findBestMatch grid iA = grid.find? (fun r => rowScore (App.textOf iA) r == mA) ∧
    Enh.findBestMatch grid iE = grid.find? (fun r => rowScore (Enh.textOf iE) r == mE) := by
  have h1 := scanBest_firstMax (App.textOf iA) mA grid none 0 hmA hallA hexA
  have h2 := scanBest_firstMax (Enh.textOf iE) mE grid none 0 hmE hallE hexE
  obtain ⟨rA, hrA⟩ : ∃ rA, grid.find? (fun r => rowScore (App.textOf iA) r == mA) = some rA := by
    rcases hexA with ⟨r, hr, hm⟩
    exact Option.isSome_iff_exists.mp (List.find?_isSome.mpr ⟨r, hr, by simp [hm]⟩)
  obtain ⟨rE, hrE⟩ : ∃ rE, grid.find? (fun r => rowScore (Enh.textOf iE) r == mE) = some rE := by
    rcases hexE with ⟨r, hr, hm⟩
    exact Option.isSome_iff_exists.mp (List.find?_isSome.mpr ⟨r, hr, by simp [hm]⟩)
  constructor
  · unfold App.findBestMatch
    rw [h1, hrA]
  · unfold Enh.findBestMatch
    rw [h2, hrE]

/-- The dollar-form matcher captures exactly the digit run of an embedded
amount followed by a non-extending character. -/
theorem matchAmountAt_embed {ds post : List Char} (hds : ds ≠ [])
    (hdig : ∀ c ∈ ds, c.isDigit = true) (hpost : amountContinues post = false) :
    matchAmountAt (ds ++ post) = some ds := by
  obtain ⟨d, ds', rfl⟩ : ∃ d ds', ds = d :: ds' := by
    cases ds with
    | nil => exact absurd rfl hds
    | cons d t => exact ⟨d, t, rfl⟩
  have hnotdc : ∀ c, post.head? = some c → isDigitComma c = false := by
    intro c hc
    cases post with
    | nil => cases hc
    | cons p t =>
      cases hc
      cases hdc : isDigitComma c
      · rfl
      · rw [show amountContinues (c :: t) = (isDigitComma c || c == '.') from rfl, hdc] at hpost
        cases hpost
  have hd : ((d :: ds') ++ post).dropWhile isJsSpace = (d :: ds') ++ post := by
    rw [List.cons_append, List.dropWhile_cons,
      isDigit_not_jsSpace (hdig d (List.mem_cons_self d ds'))]
    simp
  have hrun : ((d :: ds') ++ post).takeWhile isDigitComma = d :: ds' := by
    rw [takeWhile_all_append (fun c hc => isDigit_isDigitComma (hdig c hc)),
      takeWhile_stops hnotdc, List.append_nil]
  simp only [matchAmountAt]
  rw [hd, hrun]
  simp only [List.isEmpty_cons, Bool.false_eq_true, if_false]
  rw [List.drop_left, fracOf_no_dot hpost, List.append_nil]

/-- The dollar-form scan finds an embedded amount after dollar-free text. -/
theorem findDollar_embed {pre ds post : List Char} (hpre : '$' ∉ pre) (hds : ds ≠ [])
    (hdig : ∀ c ∈ ds, c.isDigit = true) (hpost : amountContinues post = false) :
    findDollar (pre ++ '$' :: (ds ++ post)) = some ds := by
  rw [findDollar_append _ hpre]
  simp only [findDollar, beq_self_eq_true, if_true]
  rw [matchAmountAt_embed hds hdig hpost]

/-- The tier of a pure digit capture is decided by its decimal value. -/
theorem tierOf_digits {ds : List Char} (hds : ds ≠ []) (hdig : ∀ c ∈ ds, c.isDigit = true) :
    tierOfCapture ds = (if digitsVal ds ≤ 125 then "≤ USD 125" else "> USD 125") := by
  have hstrip : stripCommas ds = ds := by
    unfold stripCommas
    refine List.filter_eq_self.mpr (fun c hc => ?_)
    have h := isDigit_ne (hdig c hc) (d := ',') (by decide)
    simp [bne, h]
  have hne : ds.isEmpty = false := by
    cases ds with
    | nil => exact absurd rfl hds
    | cons d t => rfl
  unfold tierOfCapture parseCents
  rw [hstrip]
  simp only [takeWhile_all hdig, List.drop_length, hne, Bool.false_eq_true, if_false]
  by_cases h : digitsVal ds ≤ 125
  · rw [if_pos (by omega : digitsVal ds * 100 ≤ 12500), if_pos h]
  · rw [if_neg (by omega : ¬ digitsVal ds * 100 ≤ 12500), if_neg h]

/-- Claim C5 (confirmed): for an amount written with a dollar sign embedded in
text (no earlier dollar sign, and no digit, comma or dot immediately after
it), the classifier returns the low tier exactly when the amount is at most
125 and the high tier otherwise, in both variants; and when neither currency
pattern matches, both classifiers return Unknown. -/
theorem claim_C5 (pre ds post : List Char) (a : Nat)
    (hpre : '$' ∉ pre) (hds : ds ≠ []) (hdig : ∀ c ∈ ds, c.isDigit = true)
    (hval : digitsVal ds = a) (hpost : amountContinues post = false) :
    (App.detectValueTier ⟨pre ++ '$' :: (ds ++ post)⟩ =
      if a ≤ 125 then "≤ USD 125" else "> USD 125") ∧
    (Enh.detectValueTier ⟨pre ++ '$' :: (ds ++ post)⟩ =
      if a ≤ 125 then "≤ USD 125" else "> USD 125") ∧
    (∀ t : String, findDollar t.data = none → findUsd t.data = none →
      App.detectValueTier t = "Unknown") ∧
    (∀ t : String, findDollar t.data = none → Enh.detectValueTier t = "Unknown") := by
  have hne : (⟨pre ++ '$' :: (ds ++ post)⟩ : String) ≠ "" := by
    intro h
    have h2 := congrArg String.data h
    simp at h2
  have hb : ((⟨pre ++ '$' :: (ds ++ post)⟩ : String) == "") = false :=
    beq_eq_false_iff_ne.mpr hne
  have hfd : findDollar (⟨pre ++ '$' :: (ds ++ post)⟩ : String).data = some ds :=
    findDollar_embed hpre hds hdig hpost
  refine ⟨?_, ?_, ?_, ?_⟩
  · unfold App.detectValueTier
    rw [hb]
    simp only [Bool.false_eq_true, if_false]
    rw [hfd]
    show tierOfCapture ds = (if a ≤ 125 then "≤ USD 125" else "> USD 125")
    rw [tierOf_digits hds hdig, hval]
  · unfold Enh.detectValueTier
    rw [hb]
    simp only [Bool.false_eq_true, if_false]
    rw [hfd]
    show tierOfCapture ds = (if a ≤ 125 then "≤ USD 125" else "> USD 125")
    rw [tierOf_digits hds hdig, hval]
  · intro t h1 h2
    unfold App.detectValueTier
    cases ht : (t == "")
    · simp only [Bool.false_eq_true, if_false]
      rw [h1, h2]
    · simp
  · intro t h1
    unfold Enh.detectValueTier
    cases ht : (t == "")
    · simp only [Bool.false_eq_true, if_false]
      rw [h1]
    · simp

/-- Witness for claim C5 at concrete inputs on both sides of the threshold
and on pattern-free text. -/
theorem claim_C5_witness :
    App.detectValueTier ⟨"pay ".data ++ '$' :: ("50".data ++ " now".data)⟩ = "≤ USD 125" ∧
    Enh.detectValueTier ⟨"cost ".data ++ '$' :: ("126".data ++ " total".data)⟩ = "> USD 125" ∧
    App.detectValueTier "hello world" = "Unknown" := by
  have h1 := claim_C5 ("pay ".data) ("50".data) (" now".data) 50 (by decide) (by decide)
    (by decide) (by decide) (by decide)
  have h2 := claim_C5 ("cost ".data) ("126".data) (" total".data) 126 (by decide) (by decide)
    (by decide) (by decide) (by decide)
  exact ⟨h1.1.trans (by decide), h2.2.1.trans (by decide),
    h1.2.2.1 "hello world" (by decide) (by decide)⟩

/-- Witness for claim C7: two rows tied at keyword score ten; the earlier row
is returned by both variants. -/
theorem claim_C7_witness :
    App.findBestMatch [rowKwA, rowKwB] (mkAppInputs "cancel" "" "" "") = some rowKwA ∧
    Enh.findBestMatch [rowKwA, rowKwB] (mkEnhInputs "cancel" "" 1 "" "") = some rowKwA := by
  have h := claim_C7 [rowKwA, rowKwB] (mkAppInputs "cancel" "" "" "")
    (mkEnhInputs "cancel" "" 1 "" "") 10 10 (by decide) (by decide) (by decide)
    (by decide) (by decide) (by decide)
  exact ⟨h.1.trans (by decide), h.2.trans (by decide)⟩

end DSS
